import Mathlib

/-!
Shallow embedding of the photon ray tracer's intersection and shading
pipeline (src/vec3.rs, src/vec4.rs, src/matrix.rs, src/ray.rs,
src/intersection.rs, src/geometry/{sphere,plane,mesh}.rs, src/main.rs).

Modelling conventions:
* `f64` is modelled by `ℚ` (exact arithmetic).  All concrete inputs used in
  the theorems below are chosen so that every square root taken is a perfect
  square of a rational, where `Rat.sqrt` agrees with the real square root.
* `f64::sqrt` is modelled by `Rat.sqrt` (wrapped as `fsqrt`).
* `f64::INFINITY` (the initial best-`t` in the closest-hit scans) is
  modelled by `⊤ : WithTop ℚ`; any rational compares `<` against it,
  matching the behaviour of any finite double against `INFINITY`.
* `x as u8` on a nonnegative float truncates toward zero and saturates at
  255; it is modelled by `f64AsU8`.  `u8` addition wraps, modelled by
  `u8add`.
* `Range::contains` from the Rust standard library is `start <= t && t < end`.
* `image::Rgb<u8>` (external crate) is modelled as a triple of naturals with
  the per-channel `map` of the `Pixel` trait.
-/

namespace Photon

/-- Model of `f64::sqrt` over the rational scalars. -/
def fsqrt (q : ℚ) : ℚ := Rat.sqrt q

/-- Vec3 (src/vec3.rs): three scalar components. -/
structure Vec3 where
  x : ℚ
  y : ℚ
  z : ℚ
deriving DecidableEq

/-- Vec3::scale (src/vec3.rs). -/
def Vec3.scale (v : Vec3) (factor : ℚ) : Vec3 :=
  ⟨v.x * factor, v.y * factor, v.z * factor⟩

/-- Vec3::dot (src/vec3.rs). -/
def Vec3.dot (v o : Vec3) : ℚ :=
  v.x * o.x + v.y * o.y + v.z * o.z

/-- Vec3::len (src/vec3.rs): `(x*x + y*y + z*z).sqrt()`. -/
def Vec3.len (v : Vec3) : ℚ :=
  fsqrt (v.x * v.x + v.y * v.y + v.z * v.z)

/-- Vec3::unit (src/vec3.rs): componentwise division by the length. -/
def Vec3.unit (v : Vec3) : Vec3 :=
  ⟨v.x / v.len, v.y / v.len, v.z / v.len⟩

/-- Vec3::inverse (src/vec3.rs): componentwise negation. -/
def Vec3.inverse (v : Vec3) : Vec3 :=
  ⟨-v.x, -v.y, -v.z⟩

instance : Add Vec3 :=
  ⟨fun a b => ⟨a.x + b.x, a.y + b.y, a.z + b.z⟩⟩

instance : Sub Vec3 :=
  ⟨fun a b => ⟨a.x - b.x, a.y - b.y, a.z - b.z⟩⟩

/-- Modelled from the spec: `Vec3::cross` is called by the triangle code
(src/geometry/mesh.rs) but its definition is not among the provided source
files; the spec describes it as the cross product of the two edge vectors
("cross of the two edges, normalized", "Möller–Trumbore algorithm using edge
vectors"), i.e. the standard 3D cross product. -/
def Vec3.cross (v o : Vec3) : Vec3 :=
  ⟨v.y * o.z - v.z * o.y, v.z * o.x - v.x * o.z, v.x * o.y - v.y * o.x⟩

/-- Vec4 (src/vec4.rs): homogeneous 4-component vector.  The source stores
`[T; 4]` indexed 0..3 with getters `x()/y()/z()/w()`; the fields here are
those four components in order. -/
structure Vec4 where
  x : ℚ
  y : ℚ
  z : ℚ
  w : ℚ
deriving DecidableEq

/-- From<Vec3> for Vec4 (src/vec4.rs): append `w = 1`. -/
def Vec4.ofVec3 (v : Vec3) : Vec4 := ⟨v.x, v.y, v.z, 1⟩

/-- Into<Vec3> for Vec4 (src/vec4.rs): drop the `w` component. -/
def Vec4.toVec3 (v : Vec4) : Vec3 := ⟨v.x, v.y, v.z⟩

/-- Matrix4x4 (src/matrix.rs): four rows, each a Vec4; `rI.x` is entry
`[I][0]`, `rI.y` is `[I][1]`, `rI.z` is `[I][2]`, `rI.w` is `[I][3]`. -/
structure Matrix4x4 where
  r0 : Vec4
  r1 : Vec4
  r2 : Vec4
  r3 : Vec4
deriving DecidableEq

/-- Matrix4x4::identity (src/matrix.rs). -/
def Matrix4x4.identity : Matrix4x4 :=
  ⟨⟨1, 0, 0, 0⟩, ⟨0, 1, 0, 0⟩, ⟨0, 0, 1, 0⟩, ⟨0, 0, 0, 1⟩⟩

/-- Mul<Vec4<T>> for &Matrix4x4<T> (src/matrix.rs lines 84-91), transcribed
verbatim.  Note the first summand of each output row in the source: row 0
uses `vec[0]`, but row 1 uses `vec[1]`, row 2 uses `vec[2]` and row 3 uses
`vec[3]` as the coefficient of the row's column-0 entry. -/
def Matrix4x4.mulVec (m : Matrix4x4) (vec : Vec4) : Vec4 :=
  ⟨vec.x * m.r0.x + vec.y * m.r0.y + vec.z * m.r0.z + vec.w * m.r0.w,
   vec.y * m.r1.x + vec.y * m.r1.y + vec.z * m.r1.z + vec.w * m.r1.w,
   vec.z * m.r2.x + vec.y * m.r2.y + vec.z * m.r2.z + vec.w * m.r2.w,
   vec.w * m.r3.x + vec.y * m.r3.y + vec.z * m.r3.z + vec.w * m.r3.w⟩

/-- Matrix4x4::inverse (src/matrix.rs lines 23-70): cofactor inverse. -/
def Matrix4x4.inverse (m : Matrix4x4) : Matrix4x4 :=
  let s0 := m.r0.x * m.r1.y - m.r1.x * m.r0.y
  let s1 := m.r0.x * m.r1.z - m.r1.x * m.r0.z
  let s2 := m.r0.x * m.r1.w - m.r1.x * m.r0.w
  let s3 := m.r0.y * m.r1.z - m.r1.y * m.r0.z
  let s4 := m.r0.y * m.r1.w - m.r1.y * m.r0.w
  let s5 := m.r0.z * m.r1.w - m.r1.z * m.r0.w
  let c5 := m.r2.z * m.r3.w - m.r3.z * m.r2.w
  let c4 := m.r2.y * m.r3.w - m.r3.y * m.r2.w
  let c3 := m.r2.y * m.r3.z - m.r3.y * m.r2.z
  let c2 := m.r2.x * m.r3.w - m.r3.x * m.r2.w
  let c1 := m.r2.x * m.r3.z - m.r3.x * m.r2.z
  let c0 := m.r2.x * m.r3.y - m.r3.x * m.r2.y
  let inv_det := 1 / (s0 * c5 - s1 * c4 + s2 * c3 + s3 * c2 - s4 * c1 + s5 * c0)
  ⟨⟨(m.r1.y * c5 - m.r1.z * c4 + m.r1.w * c3) * inv_det,
    (-m.r0.y * c5 + m.r0.z * c4 - m.r0.w * c3) * inv_det,
    (m.r3.y * s5 - m.r3.z * s4 + m.r3.w * s3) * inv_det,
    (-m.r2.y * s5 + m.r2.z * s4 - m.r2.w * s3) * inv_det⟩,
   ⟨(-m.r1.x * c5 + m.r1.z * c2 - m.r1.w * c1) * inv_det,
    (m.r0.x * c5 - m.r0.z * c2 + m.r0.w * c1) * inv_det,
    (-m.r3.x * s5 + m.r3.z * s2 - m.r3.w * s1) * inv_det,
    (m.r2.x * s5 - m.r2.z * s2 + m.r2.w * s1) * inv_det⟩,
   ⟨(m.r1.x * c4 - m.r1.y * c2 + m.r1.w * c0) * inv_det,
    (-m.r0.x * c4 + m.r0.y * c2 - m.r0.w * c0) * inv_det,
    (m.r3.x * s4 - m.r3.y * s2 + m.r3.w * s0) * inv_det,
    (-m.r2.x * s4 + m.r2.y * s2 - m.r2.w * s0) * inv_det⟩,
   ⟨(-m.r1.x * c3 + m.r1.y * c1 - m.r1.z * c0) * inv_det,
    (m.r0.x * c3 - m.r0.y * c1 + m.r0.z * c0) * inv_det,
    (-m.r3.x * s3 + m.r3.y * s1 - m.r3.z * s0) * inv_det,
    (m.r2.x * s3 - m.r2.y * s1 + m.r2.z * s0) * inv_det⟩⟩

/-- Matrix4x4::transform_normal (src/matrix.rs lines 72-78): applies the
transpose of the passed (inverse) matrix's upper-left 3x3 block to `n`. -/
def Matrix4x4.transform_normal (n : Vec3) (inv : Matrix4x4) : Vec3 :=
  ⟨inv.r0.x * n.x + inv.r1.x * n.y + inv.r2.x * n.z,
   inv.r0.y * n.x + inv.r1.y * n.y + inv.r2.y * n.z,
   inv.r0.z * n.x + inv.r1.z * n.y + inv.r2.z * n.z⟩

/-- Mul<Matrix4x4> for Matrix4x4 (src/matrix.rs lines 94-109): ordinary
matrix product, entry `[i][j] = Σ_k a[i][k] * b[k][j]` accumulated from 0. -/
def Matrix4x4.mmul (a b : Matrix4x4) : Matrix4x4 :=
  ⟨⟨0 + a.r0.x * b.r0.x + a.r0.y * b.r1.x + a.r0.z * b.r2.x + a.r0.w * b.r3.x,
    0 + a.r0.x * b.r0.y + a.r0.y * b.r1.y + a.r0.z * b.r2.y + a.r0.w * b.r3.y,
    0 + a.r0.x * b.r0.z + a.r0.y * b.r1.z + a.r0.z * b.r2.z + a.r0.w * b.r3.z,
    0 + a.r0.x * b.r0.w + a.r0.y * b.r1.w + a.r0.z * b.r2.w + a.r0.w * b.r3.w⟩,
   ⟨0 + a.r1.x * b.r0.x + a.r1.y * b.r1.x + a.r1.z * b.r2.x + a.r1.w * b.r3.x,
    0 + a.r1.x * b.r0.y + a.r1.y * b.r1.y + a.r1.z * b.r2.y + a.r1.w * b.r3.y,
    0 + a.r1.x * b.r0.z + a.r1.y * b.r1.z + a.r1.z * b.r2.z + a.r1.w * b.r3.z,
    0 + a.r1.x * b.r0.w + a.r1.y * b.r1.w + a.r1.z * b.r2.w + a.r1.w * b.r3.w⟩,
   ⟨0 + a.r2.x * b.r0.x + a.r2.y * b.r1.x + a.r2.z * b.r2.x + a.r2.w * b.r3.x,
    0 + a.r2.x * b.r0.y + a.r2.y * b.r1.y + a.r2.z * b.r2.y + a.r2.w * b.r3.y,
    0 + a.r2.x * b.r0.z + a.r2.y * b.r1.z + a.r2.z * b.r2.z + a.r2.w * b.r3.z,
    0 + a.r2.x * b.r0.w + a.r2.y * b.r1.w + a.r2.z * b.r2.w + a.r2.w * b.r3.w⟩,
   ⟨0 + a.r3.x * b.r0.x + a.r3.y * b.r1.x + a.r3.z * b.r2.x + a.r3.w * b.r3.x,
    0 + a.r3.x * b.r0.y + a.r3.y * b.r1.y + a.r3.z * b.r2.y + a.r3.w * b.r3.y,
    0 + a.r3.x * b.r0.z + a.r3.y * b.r1.z + a.r3.z * b.r2.z + a.r3.w * b.r3.z,
    0 + a.r3.x * b.r0.w + a.r3.y * b.r1.w + a.r3.z * b.r2.w + a.r3.w * b.r3.w⟩⟩

/-- Ray (src/ray.rs): origin, direction and the valid parameter range
`[rmin, rmax)` (a Rust `Range<f64>`). -/
structure Ray where
  origin : Vec3
  direction : Vec3
  rmin : ℚ
  rmax : ℚ

/-- Ray::new (src/ray.rs): normalizes the direction at construction. -/
def Ray.new (origin direction : Vec3) (rmin rmax : ℚ) : Ray :=
  ⟨origin, direction.unit, rmin, rmax⟩

/-- Ray::offset (src/ray.rs). -/
def Ray.offset (r : Ray) (t : ℚ) : Vec3 :=
  r.origin + r.direction.scale t

/-- Ray::contains (src/ray.rs): `Range::contains`, i.e.
`start <= t && t < end`. -/
def Ray.contains (r : Ray) (t : ℚ) : Prop :=
  r.rmin ≤ t ∧ t < r.rmax

instance (r : Ray) (t : ℚ) : Decidable (r.contains t) :=
  inferInstanceAs (Decidable (_ ∧ _))

/-- Intersection (src/intersection.rs). -/
structure Intersection where
  t : ℚ
  point : Vec3
  normal : Vec3
deriving DecidableEq

/-- Sphere (src/geometry/sphere.rs). -/
structure Sphere where
  center : Vec3
  radius : ℚ
deriving DecidableEq

/-- Geometry for Sphere (src/geometry/sphere.rs lines 15-43). -/
def Sphere.intersection (self : Sphere) (ray : Ray) : Option Intersection :=
  let oc := ray.origin - self.center
  let a := ray.direction.dot ray.direction
  let b := 2 * oc.dot ray.direction
  let c := oc.dot oc - self.radius ^ 2
  let discriminant := b * b - 4 * a * c
  if discriminant < 0 then none
  else
    let sqrt := fsqrt discriminant
    let denominator := 2 * a
    let x1 := (-b + sqrt) / denominator
    let x2 := (-b - sqrt) / denominator
    let t := if x1 < x2 then x1 else x2
    let intersection := ray.offset t
    let normal := (intersection - self.center).unit
    some ⟨t, intersection, normal⟩

/-- Transform for Sphere (src/geometry/sphere.rs lines 46-54): only the
center is mapped, as a `w = 1` homogeneous point; the radius is untouched. -/
def Sphere.transform (self : Sphere) (transformation : Matrix4x4) : Sphere :=
  ⟨(transformation.mulVec ⟨self.center.x, self.center.y, self.center.z, 1⟩).toVec3,
   self.radius⟩

/-- Plane (src/geometry/plane.rs). -/
structure Plane where
  point : Vec3
  normal : Vec3
deriving DecidableEq

/-- Geometry for Plane (src/geometry/plane.rs lines 17-27). -/
def Plane.intersection (self : Plane) (ray : Ray) : Option Intersection :=
  let denominator := self.normal.dot ray.direction
  if 1/1000000 ≤ |denominator| then
    let p0r0 := self.point - ray.origin
    let t := p0r0.dot self.normal / denominator
    some ⟨t, ray.origin + ray.direction.scale t, self.normal⟩
  else
    none

/-- Transform for Plane (src/geometry/plane.rs lines 30-35): both the point
and the normal go through `transformation * Vec4::from(v)`, i.e. both are
mapped as `w = 1` homogeneous points. -/
def Plane.transform (self : Plane) (transformation : Matrix4x4) : Plane :=
  ⟨(transformation.mulVec (Vec4.ofVec3 self.point)).toVec3,
   (transformation.mulVec (Vec4.ofVec3 self.normal)).toVec3⟩

/-- Triangle (src/geometry/mesh.rs): `v0 v1 v2` are `vertices[0..2]`,
`n0 n1 n2` are `normals[0..2]`. -/
structure Triangle where
  v0 : Vec3
  v1 : Vec3
  v2 : Vec3
  n0 : Vec3
  n1 : Vec3
  n2 : Vec3
deriving DecidableEq

/-- Triangle::new (src/geometry/mesh.rs lines 24-32): the default normal is
`vertices[0].cross(&vertices[1]).unit()`, stored at all three corners. -/
def Triangle.new (v0 v1 v2 : Vec3) : Triangle :=
  let n := (v0.cross v1).unit
  ⟨v0, v1, v2, n, n, n⟩

/-- Triangle::with_normals (src/geometry/mesh.rs lines 34-37). -/
def Triangle.with_normals (self : Triangle) (n0 n1 n2 : Vec3) : Triangle :=
  ⟨self.v0, self.v1, self.v2, n0, n1, n2⟩

/-- Model of `f64::EPSILON` = 2^(-52). -/
def f64Epsilon : ℚ := 1 / 4503599627370496

/-- Geometry for Triangle (src/geometry/mesh.rs lines 40-81):
Möller–Trumbore. -/
def Triangle.intersection (self : Triangle) (ray : Ray) : Option Intersection :=
  let e1 := self.v1 - self.v0
  let e2 := self.v2 - self.v0
  let p := ray.direction.cross e2
  let determinant := e1.dot p
  if |determinant| < f64Epsilon then none
  else
    let inv_det := 1 / determinant
    let s := ray.origin - self.v0
    let beta := inv_det * s.dot p
    if beta < 0 ∨ beta > 1 then none
    else
      let q := s.cross e1
      let gamma := inv_det * ray.direction.dot q
      if gamma < 0 ∨ beta + gamma > 1 then none
      else
        let t := inv_det * e2.dot q
        if ray.contains t then
          let alpha := 1 - beta - gamma
          let n := self.n0.scale alpha + self.n1.scale beta + self.n2.scale gamma
          some ⟨t, ray.offset t, n⟩
        else
          none

/-- Transform for Triangle (src/geometry/mesh.rs lines 84-95): vertices as
`w = 1` points, normals through `transform_normal` with the inverse. -/
def Triangle.transform (self : Triangle) (transformation : Matrix4x4) : Triangle :=
  let inverse := transformation.inverse
  ⟨(transformation.mulVec (Vec4.ofVec3 self.v0)).toVec3,
   (transformation.mulVec (Vec4.ofVec3 self.v1)).toVec3,
   (transformation.mulVec (Vec4.ofVec3 self.v2)).toVec3,
   Matrix4x4.transform_normal self.n0 inverse,
   Matrix4x4.transform_normal self.n1 inverse,
   Matrix4x4.transform_normal self.n2 inverse⟩

/-- Geometry (src/geometry/mod.rs): the closed set of primitive variants
behind the `Geometry` trait object; a Mesh is its list of triangles. -/
inductive Geometry where
| sphere (s : Sphere)
| plane (p : Plane)
| triangle (t : Triangle)
| mesh (triangles : List Triangle)
deriving DecidableEq

/-- Geometry for Mesh (src/geometry/mesh.rs lines 177-193): the running
minimum-`t` scan over the triangles.  `t` starts at `f64::INFINITY` (⊤). -/
def meshAux (ray : Ray) : List Triangle → WithTop ℚ → Option Intersection → Option Intersection
| [], _, closest => closest
| tri :: rest, t, closest =>
  match tri.intersection ray with
  | some i =>
    if (i.t : WithTop ℚ) < t ∧ ray.contains i.t then
      meshAux ray rest (i.t : WithTop ℚ) (some i)
    else
      meshAux ray rest t closest
  | none => meshAux ray rest t closest

/-- Geometry::intersection dispatch (src/geometry/mod.rs). -/
def Geometry.intersection : Geometry → Ray → Option Intersection
| .sphere s, ray => s.intersection ray
| .plane p, ray => p.intersection ray
| .triangle t, ray => t.intersection ray
| .mesh triangles, ray => meshAux ray triangles ⊤ none

/-- Geometry::transform dispatch (Transform impls of each variant; Mesh
transforms each triangle, src/geometry/mesh.rs lines 196-202). -/
def Geometry.transform : Geometry → Matrix4x4 → Geometry
| .sphere s, m => .sphere (s.transform m)
| .plane p, m => .plane (p.transform m)
| .triangle t, m => .triangle (t.transform m)
| .mesh triangles, m => .mesh (triangles.map (fun t => t.transform m))

/-- Rgb (the `image::Rgb<u8>` pixel used in src/main.rs): three channels. -/
structure Rgb where
  r : ℕ
  g : ℕ
  b : ℕ
deriving DecidableEq

/-- Pixel::map of `image::Rgb`: apply `f` to each channel. -/
def Rgb.map (c : Rgb) (f : ℕ → ℕ) : Rgb := ⟨f c.r, f c.g, f c.b⟩

/-- Model of the Rust `x as u8` cast of a float: truncate toward zero and
saturate to [0, 255]. -/
def f64AsU8 (q : ℚ) : ℕ := (min 255 (max 0 ⌊q⌋)).toNat

/-- Model of `u8` addition (wraps modulo 256; the traced values stay below
256 whenever the reflectivity lies in [0,1]). -/
def u8add (a b : ℕ) : ℕ := (a + b) % 256

/-- Material (src/main.rs lines 42-47). -/
structure Material where
  color : Rgb
  reflective : ℚ
deriving DecidableEq

/-- Model (src/geometry/mod.rs lines 19-22). -/
structure Model where
  geometry : Geometry
  material : Material
deriving DecidableEq

/-- PointLight (src/main.rs lines 54-58); the only Light variant. -/
structure PointLight where
  intensity : ℚ
  position : Vec3
deriving DecidableEq

/-- Light::pos for PointLight (src/main.rs). -/
def PointLight.pos (l : PointLight) : Vec3 := l.position

/-- Light::intensity for PointLight (src/main.rs lines 64-73); named
`intensityAt` here because the struct field is already called `intensity`. -/
def PointLight.intensityAt (self : PointLight) (intersection : Intersection) : ℚ :=
  let l := self.position - intersection.point
  let r := intersection.normal.dot l
  if r > 0 then
    self.intensity * r / (intersection.normal.len * l.len)
  else
    0

/-- Scene (src/main.rs lines 75-81). -/
structure Scene where
  lights : List PointLight
  objects : List Model
  depth : ℕ
  background : Rgb

/-- Scene::closest_intersection loop body (src/main.rs lines 180-194): the
running minimum-`t` scan over the models; `t` starts at `f64::INFINITY`. -/
def closestAux (ray : Ray) : List Model → WithTop ℚ → Option (Model × Intersection) → Option (Model × Intersection)
| [], _, closest => closest
| model :: rest, t, closest =>
  match model.geometry.intersection ray with
  | some i =>
    if (i.t : WithTop ℚ) < t ∧ ray.contains i.t then
      closestAux ray rest (i.t : WithTop ℚ) (some (model, i))
    else
      closestAux ray rest t closest
  | none => closestAux ray rest t closest

/-- Scene::closest_intersection (src/main.rs lines 180-194). -/
def Scene.closestIntersection (self : Scene) (ray : Ray) : Option (Model × Intersection) :=
  closestAux ray self.objects ⊤ none

/-- Scene::lightning loop (src/main.rs lines 196-210), accumulator-passing
form of the `for` loop over the lights. -/
def lightningAux (self : Scene) (intersection : Intersection) : List PointLight → ℚ → ℚ
| [], intensity => intensity
| light :: rest, intensity =>
  let direction := light.pos - intersection.point
  let ray := Ray.new intersection.point direction (1/1000000) (1e20)
  if (self.closestIntersection ray).isSome then
    lightningAux self intersection rest intensity
  else
    lightningAux self intersection rest (intensity + light.intensityAt intersection)

/-- Scene::lightning (src/main.rs lines 196-210). -/
def Scene.lightning (self : Scene) (intersection : Intersection) : ℚ :=
  lightningAux self intersection self.lights 0

/-- Scene::trace_limited (src/main.rs lines 140-178).  The fuel is the `u16`
depth; the source tests `depth <= 0 || reflective <= 0.0` after computing
the locally shaded color, which is the 0-fuel case here. -/
def Scene.traceLimited (self : Scene) : ℕ → Ray → Rgb
| depth, ray =>
  match self.closestIntersection ray with
  | none => self.background
  | some (m, i) =>
    let intensity := self.lightning i
    let reflective := m.material.reflective
    let color := m.material.color.map (fun c =>
      let color := (c : ℚ) * intensity
      if color > 255 then 255 else f64AsU8 color)
    match depth with
    | 0 => color
    | dp + 1 =>
      if reflective ≤ 0 then color
      else
        let n := i.normal.unit
        let d := ray.direction.inverse
        let direction := n.scale (2 * n.dot d) - d
        let ray2 := Ray.new i.point direction (1/1000000) (1e20)
        let reflected_color := self.traceLimited dp ray2
        let cr := color.map (fun c => f64AsU8 ((c : ℚ) * (1 - reflective)))
        let cl := reflected_color.map (fun c => f64AsU8 ((c : ℚ) * reflective))
        ⟨u8add cr.r cl.r, u8add cr.g cl.g, u8add cr.b cl.b⟩

/-- Scene::trace (src/main.rs lines 136-138). -/
def Scene.trace (self : Scene) (ray : Ray) : Rgb :=
  self.traceLimited self.depth ray

/-! Spec-side definitions used to state the claims, and the concrete
instances the theorems below evaluate the code on. -/

/-- Shorthand for the hit a single model yields for a ray. -/
def hitOf (ray : Ray) (m : Model) : Option Intersection :=
  m.geometry.intersection ray

/-- Modelled from the spec and claim C2: the standard row-by-column
matrix-vector product, component i equal to `Σ_j M[i][j] * v[j]`. -/
def Matrix4x4.mulVecStd (m : Matrix4x4) (vec : Vec4) : Vec4 :=
  ⟨vec.x * m.r0.x + vec.y * m.r0.y + vec.z * m.r0.z + vec.w * m.r0.w,
   vec.x * m.r1.x + vec.y * m.r1.y + vec.z * m.r1.z + vec.w * m.r1.w,
   vec.x * m.r2.x + vec.y * m.r2.y + vec.z * m.r2.z + vec.w * m.r2.w,
   vec.x * m.r3.x + vec.y * m.r3.y + vec.z * m.r3.z + vec.w * m.r3.w⟩

/-- Transpose of a 4x4 matrix (used to state the inverse-transpose
convention of the spec). -/
def Matrix4x4.transpose (m : Matrix4x4) : Matrix4x4 :=
  ⟨⟨m.r0.x, m.r1.x, m.r2.x, m.r3.x⟩,
   ⟨m.r0.y, m.r1.y, m.r2.y, m.r3.y⟩,
   ⟨m.r0.z, m.r1.z, m.r2.z, m.r3.z⟩,
   ⟨m.r0.w, m.r1.w, m.r2.w, m.r3.w⟩⟩

/-- Modelled from the spec: applying a matrix's upper-left 3x3 block to a
3-vector by ordinary row-times-column products (how a linear map acts on a
direction, with no translation column involved). -/
def apply3x3 (m : Matrix4x4) (n : Vec3) : Vec3 :=
  ⟨m.r0.x * n.x + m.r0.y * n.y + m.r0.z * n.z,
   m.r1.x * n.x + m.r1.y * n.y + m.r1.z * n.z,
   m.r2.x * n.x + m.r2.y * n.y + m.r2.z * n.z⟩

/-- Quadratic coefficient `a` formed by Sphere::intersection. -/
def sphereQa (ray : Ray) : ℚ := ray.direction.dot ray.direction

/-- Quadratic coefficient `b` formed by Sphere::intersection. -/
def sphereQb (s : Sphere) (ray : Ray) : ℚ :=
  2 * ((ray.origin - s.center).dot ray.direction)

/-- Quadratic coefficient `c` formed by Sphere::intersection. -/
def sphereQc (s : Sphere) (ray : Ray) : ℚ :=
  (ray.origin - s.center).dot (ray.origin - s.center) - s.radius ^ 2

/-- Discriminant `b*b - 4*a*c` formed by Sphere::intersection. -/
def sphereDisc (s : Sphere) (ray : Ray) : ℚ :=
  sphereQb s ray * sphereQb s ray - 4 * sphereQa ray * sphereQc s ray

/-- Local shading of the hit model's color by the light intensity
(step 2 of the trace, src/main.rs lines 146-156). -/
def localShade (m : Model) (intensity : ℚ) : Rgb :=
  m.material.color.map (fun c =>
    let color := (c : ℚ) * intensity
    if color > 255 then 255 else f64AsU8 color)

/-- The reflection ray cast by the trace (src/main.rs lines 161-165). -/
def reflectionRay (ray : Ray) (i : Intersection) : Ray :=
  let n := i.normal.unit
  let d := ray.direction.inverse
  Ray.new i.point (n.scale (2 * n.dot d) - d) (1/1000000) (1e20)

/-- Blend as the code performs it: each term truncated to u8 separately,
then the truncated terms added (src/main.rs lines 167-170). -/
def blendPerTerm (localColor reflected : Rgb) (reflective : ℚ) : Rgb :=
  ⟨u8add (f64AsU8 ((localColor.r : ℚ) * (1 - reflective))) (f64AsU8 ((reflected.r : ℚ) * reflective)),
   u8add (f64AsU8 ((localColor.g : ℚ) * (1 - reflective))) (f64AsU8 ((reflected.g : ℚ) * reflective)),
   u8add (f64AsU8 ((localColor.b : ℚ) * (1 - reflective))) (f64AsU8 ((reflected.b : ℚ) * reflective))⟩

/-- Modelled from the claim C3: the blend with the integer truncation
applied only after the per-channel floating-point sum is formed. -/
def blendAfterSum (localColor reflected : Rgb) (reflective : ℚ) : Rgb :=
  ⟨f64AsU8 ((localColor.r : ℚ) * (1 - reflective) + (reflected.r : ℚ) * reflective),
   f64AsU8 ((localColor.g : ℚ) * (1 - reflective) + (reflected.g : ℚ) * reflective),
   f64AsU8 ((localColor.b : ℚ) * (1 - reflective) + (reflected.b : ℚ) * reflective)⟩

/-- Modelled from the claim C9: the contribution of one light, zero when
the shadow ray toward the light hits anything, otherwise
`intensity * max(0, N·L) / (|N| * |L|)` with `L` unnormalized. -/
def lightContributionSpec (sc : Scene) (i : Intersection) (light : PointLight) : ℚ :=
  let l := light.position - i.point
  let ray := Ray.new i.point l (1/1000000) (1e20)
  if (sc.closestIntersection ray).isSome then 0
  else light.intensity * max 0 (i.normal.dot l) / (i.normal.len * l.len)

/-- Matrix with a nonzero entry in column 0 of row 1 (a shear); exposes the
wrong coefficient picked by `Mul<Vec4> for &Matrix4x4` in rows 1..3. -/
def mBug : Matrix4x4 := ⟨⟨1,0,0,0⟩, ⟨1,1,0,0⟩, ⟨0,0,1,0⟩, ⟨0,0,0,1⟩⟩

/-- Translation by (0,0,1). -/
def mTrans : Matrix4x4 := ⟨⟨1,0,0,0⟩, ⟨0,1,0,0⟩, ⟨0,0,1,1⟩, ⟨0,0,0,1⟩⟩

/-- A triangle whose vertices are moved off the origin, used for the
transform round-trip. -/
def tShear : Triangle := ⟨⟨0,1,0⟩, ⟨1,0,0⟩, ⟨0,0,1⟩, ⟨0,0,1⟩, ⟨0,0,1⟩, ⟨0,0,1⟩⟩

/-- Reflective plane z = 2 facing the origin. -/
def pA : Plane := ⟨⟨0,0,2⟩, ⟨0,0,-1⟩⟩

/-- Model of that plane: color (249, 201, 10), reflectivity 1/2. -/
def mA : Model := ⟨.plane pA, ⟨⟨249, 201, 10⟩, 1/2⟩⟩

/-- Scene with the reflective plane, one point light at (0,3,-2) of
intensity 1, and background (31, 31, 31). -/
def S3 : Scene := ⟨[⟨1, ⟨0,3,-2⟩⟩], [mA], 2, ⟨31,31,31⟩⟩

/-- Primary ray from the origin along +z. -/
def R1 : Ray := Ray.new ⟨0,0,0⟩ ⟨0,0,1⟩ (1/1000000) (1e20)

/-- The hit of `R1` on the plane `pA`. -/
def i1 : Intersection := ⟨2, ⟨0,0,2⟩, ⟨0,0,-1⟩⟩

/-- Sphere of radius 1 centered at (0,0,3): `R1`-like rays hit it at t = 2. -/
def sph1 : Sphere := ⟨⟨0,0,3⟩, 1⟩

/-- Sphere of radius 1 centered at (0,0,5): hit at t = 4 by the same ray. -/
def sph2 : Sphere := ⟨⟨0,0,5⟩, 1⟩

/-- A non-reflective material. -/
def mat0 : Material := ⟨⟨255, 0, 0⟩, 0⟩

/-- Model of `sph1`. -/
def mdl1 : Model := ⟨.sphere sph1, mat0⟩

/-- Model of `sph2`. -/
def mdl2 : Model := ⟨.sphere sph2, mat0⟩

/-- Scene with the two overlapping-in-depth spheres. -/
def S7 : Scene := ⟨[], [mdl1, mdl2], 2, ⟨0,0,0⟩⟩

/-- Ray from the origin along +z with the usual interval. -/
def R7 : Ray := Ray.new ⟨0,0,0⟩ ⟨0,0,1⟩ (1/1000000) (1e20)

/-- The nearer hit, on `sph1`. -/
def i7 : Intersection := ⟨2, ⟨0,0,2⟩, ⟨0,0,-1⟩⟩

/-- A triangle in the plane z = 2 containing the point (0,0,2). -/
def tri0 : Triangle := ⟨⟨-1,-1,2⟩, ⟨3,-1,2⟩, ⟨-1,3,2⟩, ⟨0,0,-1⟩, ⟨0,0,-1⟩, ⟨0,0,-1⟩⟩

/-- The unit sphere at the origin. -/
def sphUnit : Sphere := ⟨⟨0,0,0⟩, 1⟩

/-- Ray whose origin (1,0,0) lies on the unit sphere's surface and whose
direction is the outward surface normal there, interval (1e-6, 1e20). -/
def Rout : Ray := Ray.new ⟨1,0,0⟩ ⟨1,0,0⟩ (1/1000000) (1e20)

/-- The spec's test ray: origin (0,0,-5), direction (0,0,1). -/
def R8 : Ray := Ray.new ⟨0,0,-5⟩ ⟨0,0,1⟩ (1/1000000) (1e20)

/-! Basic evaluation lemmas. -/

theorem Vec3.add_def (a b : Vec3) : a + b = ⟨a.x + b.x, a.y + b.y, a.z + b.z⟩ := rfl

theorem Vec3.sub_def (a b : Vec3) : a - b = ⟨a.x - b.x, a.y - b.y, a.z - b.z⟩ := rfl

theorem fsqrt_sq (q : ℚ) (h : 0 ≤ q) : fsqrt (q * q) = q := by
  rw [fsqrt, Rat.sqrt_eq, abs_of_nonneg h]

theorem fsqrt_one : fsqrt 1 = 1 := by
  have h := fsqrt_sq 1 (by norm_num)
  norm_num at h
  exact h

theorem fsqrt_four : fsqrt 4 = 2 := by
  have h := fsqrt_sq 2 (by norm_num)
  norm_num at h
  exact h

theorem fsqrt_25 : fsqrt 25 = 5 := by
  have h := fsqrt_sq 5 (by norm_num)
  norm_num at h
  exact h

/-! Shape of the primitive intersection results (C1, C8). -/

theorem sphere_intersection_eq (s : Sphere) (ray : Ray) :
    s.intersection ray =
      if sphereDisc s ray < 0 then none
      else
        let sqrt := fsqrt (sphereDisc s ray)
        let x1 := (-sphereQb s ray + sqrt) / (2 * sphereQa ray)
        let x2 := (-sphereQb s ray - sqrt) / (2 * sphereQa ray)
        let t := if x1 < x2 then x1 else x2
        some ⟨t, ray.offset t, (ray.offset t - s.center).unit⟩ := rfl

theorem sphere_isSome_iff (s : Sphere) (ray : Ray) :
    (s.intersection ray).isSome ↔ ¬ sphereDisc s ray < 0 := by
  rw [sphere_intersection_eq]
  by_cases h : sphereDisc s ray < 0
  · rw [if_pos h]; simp [h]
  · rw [if_neg h]; simp [h]

theorem plane_isSome_iff (p : Plane) (ray : Ray) :
    (p.intersection ray).isSome ↔ 1/1000000 ≤ |p.normal.dot ray.direction| := by
  rw [Plane.intersection]
  by_cases h : 1/1000000 ≤ |p.normal.dot ray.direction|
  · rw [if_pos h]; simpa using h
  · rw [if_neg h]; simpa using not_le.mp h

/-! The quadratic solved by the sphere (C8). -/

theorem quad_key (a b c sq u : ℚ) (hsq : sq * sq = b * b - 4 * a * c) :
    (2 * a * u + b - sq) * (2 * a * u + b + sq) = 4 * a * (a * u ^ 2 + b * u + c) := by
  linear_combination (-1 : ℚ) * hsq

theorem quad_root_x1 (a b c sq : ℚ) (ha : a ≠ 0) (hsq : sq * sq = b * b - 4 * a * c) :
    a * ((-b + sq) / (2 * a)) ^ 2 + b * ((-b + sq) / (2 * a)) + c = 0 := by
  have hx : 2 * a * ((-b + sq) / (2 * a)) + b - sq = 0 := by
    field_simp
    try ring
  have hk := quad_key a b c sq ((-b + sq) / (2 * a)) hsq
  rw [hx, zero_mul] at hk
  rcases mul_eq_zero.mp hk.symm with h4 | hq
  · exact absurd h4 (mul_ne_zero (by norm_num) ha)
  · exact hq

theorem quad_root_x2 (a b c sq : ℚ) (ha : a ≠ 0) (hsq : sq * sq = b * b - 4 * a * c) :
    a * ((-b - sq) / (2 * a)) ^ 2 + b * ((-b - sq) / (2 * a)) + c = 0 := by
  have hx : 2 * a * ((-b - sq) / (2 * a)) + b + sq = 0 := by
    field_simp
    try ring
  have hk := quad_key a b c sq ((-b - sq) / (2 * a)) hsq
  rw [hx, mul_zero] at hk
  rcases mul_eq_zero.mp hk.symm with h4 | hq
  · exact absurd h4 (mul_ne_zero (by norm_num) ha)
  · exact hq

theorem quad_root_cases (a b c sq u : ℚ) (ha : a ≠ 0) (hsq : sq * sq = b * b - 4 * a * c)
    (hu : a * u ^ 2 + b * u + c = 0) :
    u = (-b + sq) / (2 * a) ∨ u = (-b - sq) / (2 * a) := by
  have hk := quad_key a b c sq u hsq
  rw [hu, mul_zero] at hk
  rcases mul_eq_zero.mp hk with h1 | h2
  · left
    field_simp
    linarith
  · right
    field_simp
    linarith

theorem if_min_le_left (x1 x2 : ℚ) : (if x1 < x2 then x1 else x2) ≤ x1 := by
  by_cases h : x1 < x2
  · rw [if_pos h]
  · rw [if_neg h]; exact not_lt.mp h

theorem if_min_le_right (x1 x2 : ℚ) : (if x1 < x2 then x1 else x2) ≤ x2 := by
  by_cases h : x1 < x2
  · rw [if_pos h]; exact le_of_lt h
  · rw [if_neg h]

theorem if_min_mem (x1 x2 : ℚ) :
    (if x1 < x2 then x1 else x2) = x1 ∨ (if x1 < x2 then x1 else x2) = x2 := by
  by_cases h : x1 < x2
  · left; rw [if_pos h]
  · right; rw [if_neg h]

theorem sphere_reports_min_root (s : Sphere) (ray : Ray)
    (h1 : ¬ sphereDisc s ray < 0) (h2 : sphereQa ray ≠ 0)
    (h3 : fsqrt (sphereDisc s ray) * fsqrt (sphereDisc s ray) = sphereDisc s ray) :
    ∃ i, s.intersection ray = some i ∧
      sphereQa ray * i.t ^ 2 + sphereQb s ray * i.t + sphereQc s ray = 0 ∧
      ∀ u : ℚ, sphereQa ray * u ^ 2 + sphereQb s ray * u + sphereQc s ray = 0 → i.t ≤ u := by
  have hsq : fsqrt (sphereDisc s ray) * fsqrt (sphereDisc s ray) =
      sphereQb s ray * sphereQb s ray - 4 * sphereQa ray * sphereQc s ray := by
    rw [h3, sphereDisc]
  rw [sphere_intersection_eq, if_neg h1]
  refine ⟨_, rfl, ?_, ?_⟩
  · show sphereQa ray *
      (if (-sphereQb s ray + fsqrt (sphereDisc s ray)) / (2 * sphereQa ray) <
          (-sphereQb s ray - fsqrt (sphereDisc s ray)) / (2 * sphereQa ray)
        then (-sphereQb s ray + fsqrt (sphereDisc s ray)) / (2 * sphereQa ray)
        else (-sphereQb s ray - fsqrt (sphereDisc s ray)) / (2 * sphereQa ray)) ^ 2 +
      sphereQb s ray * _ + sphereQc s ray = 0
    rcases if_min_mem ((-sphereQb s ray + fsqrt (sphereDisc s ray)) / (2 * sphereQa ray))
        ((-sphereQb s ray - fsqrt (sphereDisc s ray)) / (2 * sphereQa ray)) with h | h
    · rw [h]
      exact quad_root_x1 _ _ _ _ h2 hsq
    · rw [h]
      exact quad_root_x2 _ _ _ _ h2 hsq
  · intro u hu
    show (if (-sphereQb s ray + fsqrt (sphereDisc s ray)) / (2 * sphereQa ray) <
          (-sphereQb s ray - fsqrt (sphereDisc s ray)) / (2 * sphereQa ray)
        then (-sphereQb s ray + fsqrt (sphereDisc s ray)) / (2 * sphereQa ray)
        else (-sphereQb s ray - fsqrt (sphereDisc s ray)) / (2 * sphereQa ray)) ≤ u
    rcases quad_root_cases _ _ _ (fsqrt (sphereDisc s ray)) u h2 hsq hu with rfl | rfl
    · exact if_min_le_left _ _
    · exact if_min_le_right _ _

/-! Properties of the closest-hit scan (C7, C10). -/

theorem closestAux_isSome (ray : Ray) :
    ∀ (l : List Model) (t : WithTop ℚ) (x : Model × Intersection),
      (closestAux ray l t (some x)).isSome := by
  intro l
  induction l with
  | nil => intro t x; rfl
  | cons m2 rest ih =>
    intro t x
    cases h2 : m2.geometry.intersection ray with
    | none => simp only [closestAux, h2]; exact ih t x
    | some i2 =>
      simp only [closestAux, h2]
      by_cases hp : ((i2.t : WithTop ℚ) < t ∧ ray.contains i2.t)
      · rw [if_pos hp]; exact ih _ _
      · rw [if_neg hp]; exact ih t x

theorem closestAux_none_iff (ray : Ray) :
    ∀ (l : List Model) (t0 : WithTop ℚ),
      closestAux ray l t0 none = none ↔
        ∀ m ∈ l, ∀ i, hitOf ray m = some i →
          ¬(((i.t : WithTop ℚ) < t0) ∧ ray.contains i.t) := by
  intro l
  induction l with
  | nil => intro t0; simp [closestAux]
  | cons m2 rest ih =>
    intro t0
    cases h2 : m2.geometry.intersection ray with
    | none =>
      simp only [closestAux, h2]
      rw [ih]
      constructor
      · intro h m hm i hi
        rcases List.mem_cons.mp hm with rfl | hm2
        · rw [hitOf] at hi; rw [hi] at h2; cases h2
        · exact h m hm2 i hi
      · intro h m hm i hi
        exact h m (List.mem_cons_of_mem _ hm) i hi
    | some i2 =>
      simp only [closestAux, h2]
      by_cases hp : ((i2.t : WithTop ℚ) < t0 ∧ ray.contains i2.t)
      · rw [if_pos hp]
        constructor
        · intro h
          exfalso
          have hs := closestAux_isSome ray rest (i2.t : WithTop ℚ) (m2, i2)
          rw [h] at hs; cases hs
        · intro h
          exact absurd hp (h m2 (List.mem_cons_self _ _) i2 (by rw [hitOf, h2]))
      · rw [if_neg hp]
        rw [ih]
        constructor
        · intro h m hm i hi
          rcases List.mem_cons.mp hm with rfl | hm2
          · rw [hitOf] at hi; rw [h2] at hi
            injection hi with hii; rw [← hii]; exact hp
          · exact h m hm2 i hi
        · intro h m hm i hi
          exact h m (List.mem_cons_of_mem _ hm) i hi

theorem closestAux_some_spec (ray : Ray) :
    ∀ (l : List Model) (m0 : Model) (i0 : Intersection) (m : Model) (i : Intersection),
      closestAux ray l (i0.t : WithTop ℚ) (some (m0, i0)) = some (m, i) →
      (m = m0 ∧ i = i0 ∧
        ∀ m2 ∈ l, ∀ i2, hitOf ray m2 = some i2 → ray.contains i2.t → i0.t ≤ i2.t) ∨
      (∃ pre post, l = pre ++ m :: post ∧ hitOf ray m = some i ∧ ray.contains i.t ∧
        i.t < i0.t ∧
        (∀ m2 ∈ pre, ∀ i2, hitOf ray m2 = some i2 → ray.contains i2.t → i.t < i2.t) ∧
        (∀ m2 ∈ post, ∀ i2, hitOf ray m2 = some i2 → ray.contains i2.t → i.t ≤ i2.t)) := by
  intro l
  induction l with
  | nil =>
    intro m0 i0 m i h
    simp only [closestAux] at h
    injection h with h
    injection h with h1 h2
    exact Or.inl ⟨h1.symm, h2.symm, by intro m2 hm2; cases hm2⟩
  | cons mh rest ih =>
    intro m0 i0 m i h
    cases h2 : mh.geometry.intersection ray with
    | none =>
      simp only [closestAux, h2] at h
      rcases ih m0 i0 m i h with ⟨hm, hi, hall⟩ | ⟨pre, post, hsplit, hhit, hcont, hlt, hpre, hpost⟩
      · refine Or.inl ⟨hm, hi, ?_⟩
        intro m2 hm2 i2 hx hc
        rcases List.mem_cons.mp hm2 with rfl | hm2r
        · rw [hitOf, h2] at hx; cases hx
        · exact hall m2 hm2r i2 hx hc
      · refine Or.inr ⟨mh :: pre, post, by rw [List.cons_append, hsplit], hhit, hcont, hlt, ?_, hpost⟩
        intro m2 hm2 i2 hx hc
        rcases List.mem_cons.mp hm2 with rfl | hm2r
        · rw [hitOf, h2] at hx; cases hx
        · exact hpre m2 hm2r i2 hx hc
    | some ih2 =>
      simp only [closestAux, h2] at h
      by_cases hp : ((ih2.t : WithTop ℚ) < (i0.t : WithTop ℚ) ∧ ray.contains ih2.t)
      · rw [if_pos hp] at h
        rcases ih mh ih2 m i h with ⟨rfl, rfl, hall⟩ | ⟨pre, post, hsplit, hhit, hcont, hlt, hpre, hpost⟩
        · refine Or.inr ⟨[], rest, rfl, by rw [hitOf, h2], hp.2, WithTop.coe_lt_coe.mp hp.1, ?_, hall⟩
          intro m2 hm2; cases hm2
        · refine Or.inr ⟨mh :: pre, post, by rw [List.cons_append, hsplit], hhit, hcont,
            hlt.trans (WithTop.coe_lt_coe.mp hp.1), ?_, hpost⟩
          intro m2 hm2 i2 hx hc
          rcases List.mem_cons.mp hm2 with rfl | hm2r
          · rw [hitOf, h2] at hx; injection hx with hx; rw [← hx]; exact hlt
          · exact hpre m2 hm2r i2 hx hc
      · rw [if_neg hp] at h
        rcases ih m0 i0 m i h with ⟨hm, hi, hall⟩ | ⟨pre, post, hsplit, hhit, hcont, hlt, hpre, hpost⟩
        · refine Or.inl ⟨hm, hi, ?_⟩
          intro m2 hm2 i2 hx hc
          rcases List.mem_cons.mp hm2 with rfl | hm2r
          · rw [hitOf, h2] at hx; injection hx with hx
            subst hx
            have hnlt : ¬ ((ih2.t : WithTop ℚ) < (i0.t : WithTop ℚ)) := fun hl => hp ⟨hl, hc⟩
            exact WithTop.coe_le_coe.mp (not_lt.mp hnlt)
          · exact hall m2 hm2r i2 hx hc
        · refine Or.inr ⟨mh :: pre, post, by rw [List.cons_append, hsplit], hhit, hcont, hlt, ?_, hpost⟩
          intro m2 hm2 i2 hx hc
          rcases List.mem_cons.mp hm2 with rfl | hm2r
          · rw [hitOf, h2] at hx; injection hx with hx
            subst hx
            have hnlt : ¬ ((ih2.t : WithTop ℚ) < (i0.t : WithTop ℚ)) := fun hl => hp ⟨hl, hc⟩
            exact lt_of_lt_of_le hlt (WithTop.coe_le_coe.mp (not_lt.mp hnlt))
          · exact hpre m2 hm2r i2 hx hc

theorem closestAux_none_start_spec (ray : Ray) :
    ∀ (l : List Model) (t0 : WithTop ℚ) (m : Model) (i : Intersection),
      closestAux ray l t0 none = some (m, i) →
      ∃ pre post, l = pre ++ m :: post ∧ hitOf ray m = some i ∧ ray.contains i.t ∧
        ((i.t : WithTop ℚ) < t0) ∧
        (∀ m2 ∈ pre, ∀ i2, hitOf ray m2 = some i2 → ray.contains i2.t → i.t < i2.t) ∧
        (∀ m2 ∈ post, ∀ i2, hitOf ray m2 = some i2 → ray.contains i2.t → i.t ≤ i2.t) := by
  intro l
  induction l with
  | nil => intro t0 m i h; cases h
  | cons mh rest ih =>
    intro t0 m i h
    cases h2 : mh.geometry.intersection ray with
    | none =>
      simp only [closestAux, h2] at h
      rcases ih t0 m i h with ⟨pre, post, hsplit, hhit, hcont, hlt0, hpre, hpost⟩
      refine ⟨mh :: pre, post, by rw [List.cons_append, hsplit], hhit, hcont, hlt0, ?_, hpost⟩
      intro m2 hm2 i2 hx hc
      rcases List.mem_cons.mp hm2 with rfl | hm2r
      · rw [hitOf, h2] at hx; cases hx
      · exact hpre m2 hm2r i2 hx hc
    | some ih2 =>
      simp only [closestAux, h2] at h
      by_cases hp : ((ih2.t : WithTop ℚ) < t0 ∧ ray.contains ih2.t)
      · rw [if_pos hp] at h
        rcases closestAux_some_spec ray rest mh ih2 m i h with ⟨rfl, rfl, hall⟩ | ⟨pre, post, hsplit, hhit, hcont, hlt, hpre, hpost⟩
        · refine ⟨[], rest, rfl, by rw [hitOf, h2], hp.2, hp.1, ?_, hall⟩
          intro m2 hm2; cases hm2
        · refine ⟨mh :: pre, post, by rw [List.cons_append, hsplit], hhit, hcont,
            (WithTop.coe_lt_coe.mpr hlt).trans hp.1, ?_, hpost⟩
          intro m2 hm2 i2 hx hc
          rcases List.mem_cons.mp hm2 with rfl | hm2r
          · rw [hitOf, h2] at hx; injection hx with hx; rw [← hx]; exact hlt
          · exact hpre m2 hm2r i2 hx hc
      · rw [if_neg hp] at h
        rcases ih t0 m i h with ⟨pre, post, hsplit, hhit, hcont, hlt0, hpre, hpost⟩
        refine ⟨mh :: pre, post, by rw [List.cons_append, hsplit], hhit, hcont, hlt0, ?_, hpost⟩
        intro m2 hm2 i2 hx hc
        rcases List.mem_cons.mp hm2 with rfl | hm2r
        · rw [hitOf, h2] at hx; injection hx with hx
          subst hx
          have hnlt : ¬ ((ih2.t : WithTop ℚ) < t0) := fun hl => hp ⟨hl, hc⟩
          exact WithTop.coe_lt_coe.mp (lt_of_lt_of_le hlt0 (not_lt.mp hnlt))
        · exact hpre m2 hm2r i2 hx hc

theorem closestAux_contains (ray : Ray) :
    ∀ (l : List Model) (t : WithTop ℚ) (acc : Option (Model × Intersection)),
      (∀ m i, acc = some (m, i) → ray.contains i.t) →
      ∀ m i, closestAux ray l t acc = some (m, i) → ray.contains i.t := by
  intro l
  induction l with
  | nil => intro t acc hacc m i h; exact hacc m i h
  | cons mh rest ih =>
    intro t acc hacc m i h
    cases h2 : mh.geometry.intersection ray with
    | none =>
      simp only [closestAux, h2] at h
      exact ih t acc hacc m i h
    | some i2 =>
      simp only [closestAux, h2] at h
      by_cases hp : ((i2.t : WithTop ℚ) < t ∧ ray.contains i2.t)
      · rw [if_pos hp] at h
        refine ih _ _ ?_ m i h
        intro m3 i3 h3
        injection h3 with h3
        injection h3 with h3a h3b
        rw [← h3b]
        exact hp.2
      · rw [if_neg hp] at h
        exact ih t acc hacc m i h

set_option maxHeartbeats 1000000 in
theorem meshAux_contains (ray : Ray) :
    ∀ (l : List Triangle) (t : WithTop ℚ) (acc : Option Intersection),
      (∀ i, acc = some i → ray.contains i.t) →
      ∀ i, meshAux ray l t acc = some i → ray.contains i.t := by
  intro l
  induction l with
  | nil => intro t acc hacc i h; exact hacc i h
  | cons tri rest ih =>
    intro t acc hacc i h
    cases h2 : tri.intersection ray with
    | none =>
      simp only [meshAux, h2] at h
      exact ih t acc hacc i h
    | some i2 =>
      simp only [meshAux, h2] at h
      by_cases hp : ((i2.t : WithTop ℚ) < t ∧ ray.contains i2.t)
      · rw [if_pos hp] at h
        refine ih _ _ ?_ i h
        intro i3 h3
        injection h3 with h3
        rw [← h3]
        exact hp.2
      · rw [if_neg hp] at h
        exact ih t acc hacc i h

/-! Lighting (C9). -/

theorem intensityAt_eq_spec (light : PointLight) (i : Intersection) :
    light.intensityAt i =
      light.intensity * max 0 (i.normal.dot (light.position - i.point)) /
        (i.normal.len * (light.position - i.point).len) := by
  rw [PointLight.intensityAt]
  by_cases hr : i.normal.dot (light.position - i.point) > 0
  · rw [if_pos hr, max_eq_right (le_of_lt hr)]
  · rw [if_neg hr, max_eq_left (not_lt.mp hr)]
    simp

theorem lightningAux_eq (sc : Scene) (i : Intersection) :
    ∀ (lights : List PointLight) (acc : ℚ),
      lightningAux sc i lights acc = acc + (lights.map (lightContributionSpec sc i)).sum := by
  intro lights
  induction lights with
  | nil => intro acc; simp [lightningAux]
  | cons light rest ih =>
    intro acc
    rw [lightningAux, List.map_cons, List.sum_cons]
    by_cases hocc : (sc.closestIntersection (Ray.new i.point (light.pos - i.point) (1/1000000) (1e20))).isSome
    · rw [if_pos hocc, ih]
      have hc : lightContributionSpec sc i light = 0 := by
        rw [lightContributionSpec]
        simp only [PointLight.pos] at hocc
        rw [if_pos hocc]
      rw [hc]
      ring
    · rw [if_neg hocc, ih]
      have hc : lightContributionSpec sc i light = light.intensityAt i := by
        rw [lightContributionSpec]
        simp only [PointLight.pos] at hocc
        rw [if_neg hocc, intensityAt_eq_spec]
      rw [hc]
      ring

/-! One step of the reflective trace (C3). -/

theorem traceLimited_succ_step (sc : Scene) (dp : ℕ) (ray : Ray) (m : Model) (i : Intersection)
    (hc : sc.closestIntersection ray = some (m, i))
    (hρ : 0 < m.material.reflective) :
    sc.traceLimited (dp + 1) ray =
      blendPerTerm (localShade m (sc.lightning i))
        (sc.traceLimited dp (reflectionRay ray i)) m.material.reflective := by
  rw [Scene.traceLimited, hc]
  simp only []
  rw [if_neg (not_le.mpr hρ)]
  rfl

/-! Concrete evaluations on the instances above. -/

theorem hR1 : R1 = ⟨⟨0,0,0⟩, ⟨0,0,1⟩, 1/1000000, 1e20⟩ := by
  norm_num [R1, Ray.new, Vec3.unit, Vec3.len, fsqrt_one]

theorem h_closest3 : S3.closestIntersection R1 = some (mA, i1) := by
  norm_num [Scene.closestIntersection, closestAux, S3, mA, pA, hR1, i1,
    Geometry.intersection, Plane.intersection, Ray.contains,
    Vec3.dot, Vec3.scale, Vec3.sub_def, Vec3.add_def, WithTop.coe_lt_top]

theorem h_light : S3.lightning i1 = 4/5 := by
  norm_num [Scene.lightning, lightningAux, S3, mA, pA, i1, PointLight.pos,
    PointLight.intensityAt, Ray.new, Vec3.unit, Vec3.len, Vec3.dot, Vec3.scale,
    Vec3.sub_def, Vec3.add_def, fsqrt_one, fsqrt_25, abs_of_nonneg, abs_of_nonpos,
    Scene.closestIntersection, closestAux, Geometry.intersection,
    Plane.intersection, Ray.contains, WithTop.coe_lt_top]

theorem h_refl : reflectionRay R1 i1 = ⟨⟨0,0,2⟩, ⟨0,0,-1⟩, 1/1000000, 1e20⟩ := by
  norm_num [reflectionRay, hR1, i1, Ray.new, Vec3.unit, Vec3.len, Vec3.dot,
    Vec3.scale, Vec3.inverse, Vec3.sub_def, fsqrt_one]

theorem h_trace0 : S3.traceLimited 0 (reflectionRay R1 i1) = ⟨31,31,31⟩ := by
  rw [h_refl, Scene.traceLimited]
  norm_num [Scene.closestIntersection, closestAux, S3, mA, pA, Geometry.intersection,
    Plane.intersection, Ray.contains, Vec3.dot, Vec3.scale, Vec3.sub_def,
    WithTop.coe_lt_top]

theorem h_shade : localShade mA (S3.lightning i1) = ⟨199, 160, 8⟩ := by
  rw [h_light]
  norm_num [localShade, mA, Rgb.map, f64AsU8]
  decide

theorem h_trace1 : S3.traceLimited 1 R1 = ⟨114, 95, 19⟩ := by
  rw [traceLimited_succ_step S3 0 R1 mA i1 h_closest3 (by norm_num [mA]), h_shade, h_trace0]
  norm_num [blendPerTerm, u8add, f64AsU8, mA]
  decide

theorem h_after : blendAfterSum ⟨199, 160, 8⟩ ⟨31, 31, 31⟩ mA.material.reflective = ⟨115, 95, 19⟩ := by
  norm_num [blendAfterSum, f64AsU8, mA]
  decide

theorem hR7 : R7 = ⟨⟨0,0,0⟩, ⟨0,0,1⟩, 1/1000000, 1e20⟩ := by
  norm_num [R7, Ray.new, Vec3.unit, Vec3.len, fsqrt_one]

theorem h_hit1 : mdl1.geometry.intersection R7 = some i7 := by
  norm_num [mdl1, sph1, i7, hR7, Geometry.intersection, Sphere.intersection,
    Ray.offset, Vec3.unit, Vec3.len, Vec3.dot, Vec3.scale, Vec3.sub_def, Vec3.add_def,
    fsqrt_one, fsqrt_four]

theorem h_hit2 : mdl2.geometry.intersection R7 = some ⟨4, ⟨0,0,4⟩, ⟨0,0,-1⟩⟩ := by
  norm_num [mdl2, sph2, hR7, Geometry.intersection, Sphere.intersection,
    Ray.offset, Vec3.unit, Vec3.len, Vec3.dot, Vec3.scale, Vec3.sub_def, Vec3.add_def,
    fsqrt_one, fsqrt_four]

theorem h_closest7 : S7.closestIntersection R7 = some (mdl1, i7) := by
  norm_num [Scene.closestIntersection, S7, closestAux, mdl1, mdl2, sph1, sph2,
    Geometry.intersection, Sphere.intersection, Ray.offset, Vec3.unit, Vec3.len,
    Vec3.dot, Vec3.scale, Vec3.sub_def, Vec3.add_def, fsqrt_one, fsqrt_four,
    Ray.contains, hR7, i7, WithTop.coe_lt_top, WithTop.coe_lt_coe]
  decide

theorem h_tri0 : tri0.intersection R7 = some ⟨2, ⟨0,0,2⟩, ⟨0,0,-1⟩⟩ := by
  norm_num [tri0, hR7, Triangle.intersection, f64Epsilon, Ray.contains, Ray.offset,
    Vec3.cross, Vec3.dot, Vec3.scale, Vec3.sub_def, Vec3.add_def]

theorem h_mesh0 : Geometry.intersection (.mesh [tri0]) R7 = some ⟨2, ⟨0,0,2⟩, ⟨0,0,-1⟩⟩ := by
  norm_num [Geometry.intersection, meshAux, tri0, hR7, Triangle.intersection,
    f64Epsilon, Ray.contains, Ray.offset, Vec3.cross, Vec3.dot, Vec3.scale,
    Vec3.sub_def, Vec3.add_def, WithTop.coe_lt_top]

theorem h_out_eval : Sphere.intersection sphUnit Rout = some ⟨-2, ⟨-1,0,0⟩, ⟨-1,0,0⟩⟩ := by
  norm_num [sphUnit, Rout, Sphere.intersection, Ray.new, Ray.offset, Vec3.unit,
    Vec3.len, Vec3.dot, Vec3.scale, Vec3.sub_def, Vec3.add_def, fsqrt_one, fsqrt_four]

theorem h_out_scene :
    Scene.closestIntersection ⟨[], [⟨.sphere sphUnit, mat0⟩], 2, ⟨0,0,0⟩⟩ Rout = none := by
  norm_num [Scene.closestIntersection, closestAux, Geometry.intersection, sphUnit,
    Rout, Sphere.intersection, Ray.new, Ray.offset, Vec3.unit, Vec3.len, Vec3.dot,
    Vec3.scale, Vec3.sub_def, Vec3.add_def, fsqrt_one, fsqrt_four, Ray.contains,
    WithTop.coe_lt_top]

theorem h_r8_eval : Sphere.intersection sphUnit R8 = some ⟨4, ⟨0,0,-1⟩, ⟨0,0,-1⟩⟩ := by
  norm_num [sphUnit, R8, Sphere.intersection, Ray.new, Ray.offset, Vec3.unit,
    Vec3.len, Vec3.dot, Vec3.scale, Vec3.sub_def, Vec3.add_def, fsqrt_one, fsqrt_four]

theorem h_disc8 : sphereDisc sphUnit R8 = 4 := by
  norm_num [sphereDisc, sphereQa, sphereQb, sphereQc, sphUnit, R8, Ray.new,
    Vec3.unit, Vec3.len, Vec3.dot, Vec3.sub_def, fsqrt_one]

theorem h_qa8 : sphereQa R8 = 1 := by
  norm_num [sphereQa, R8, Ray.new, Vec3.unit, Vec3.len, Vec3.dot, fsqrt_one]

theorem transform_normal_is_transpose_apply (n : Vec3) (m : Matrix4x4) :
    Matrix4x4.transform_normal n m = apply3x3 m.transpose n := by
  rw [Matrix4x4.transform_normal, apply3x3, Matrix4x4.transpose]

theorem h_mulvec_bug : mBug.mulVec ⟨1,2,3,1⟩ = ⟨1,4,3,1⟩ := by
  norm_num [Matrix4x4.mulVec, mBug]

theorem h_mulvec_std : Matrix4x4.mulVecStd mBug ⟨1,2,3,1⟩ = ⟨1,3,3,1⟩ := by
  norm_num [Matrix4x4.mulVecStd, mBug]

/-! The claims. -/

/-- C1 (counterexample): the claim says Sphere::intersection returns None
whenever every root lies outside the ray's valid interval, in particular for
a ray starting on the sphere's surface and pointing outward along the
normal; but for exactly that configuration (origin (1,0,0) on the unit
sphere, direction equal to the outward normal, interval (1e-6, 1e20), roots
0 and -2 both outside the interval) the code returns a hit with t = -2. -/
theorem c1_counterexample :
    Sphere.intersection sphUnit Rout = some ⟨-2, ⟨-1,0,0⟩, ⟨-1,0,0⟩⟩ ∧
    (Rout.origin - sphUnit.center).dot (Rout.origin - sphUnit.center) = sphUnit.radius ^ 2 ∧
    Rout.direction = (Rout.origin - sphUnit.center).unit ∧
    ¬ Rout.contains (-2) ∧
    ¬ Rout.contains 0 := by
  refine ⟨h_out_eval, ?_, ?_, ?_, ?_⟩
  · norm_num [Rout, sphUnit, Ray.new, Vec3.unit, Vec3.len, Vec3.dot, Vec3.sub_def,
      fsqrt_one]
  · norm_num [Rout, sphUnit, Ray.new, Vec3.unit, Vec3.len, Vec3.dot, Vec3.sub_def,
      fsqrt_one]
  · norm_num [Rout, Ray.new, Ray.contains, Vec3.unit, Vec3.len, fsqrt_one]
  · norm_num [Rout, Ray.new, Ray.contains, Vec3.unit, Vec3.len, fsqrt_one]

/-- C1 (amended): the primitive intersection routines perform no interval
filtering — the sphere reports a hit exactly when its discriminant is
nonnegative, and the plane exactly when |N·D| ≥ 1e-6, even when every root
lies outside the interval (the outward surface-normal ray yields a hit with
t = -2 rather than none); the interval check lives in the scene-level scan,
which rejects such hits, so the one-sphere scene reports no intersection for
that ray. -/
theorem c1_no_primitive_interval_filter :
    (∀ (s : Sphere) (ray : Ray), (s.intersection ray).isSome ↔ ¬ sphereDisc s ray < 0) ∧
    (∀ (p : Plane) (ray : Ray),
      (p.intersection ray).isSome ↔ 1/1000000 ≤ |p.normal.dot ray.direction|) ∧
    Sphere.intersection sphUnit Rout = some ⟨-2, ⟨-1,0,0⟩, ⟨-1,0,0⟩⟩ ∧
    ¬ Rout.contains (-2) ∧
    Scene.closestIntersection ⟨[], [⟨.sphere sphUnit, mat0⟩], 2, ⟨0,0,0⟩⟩ Rout = none := by
  refine ⟨sphere_isSome_iff, plane_isSome_iff, h_out_eval, ?_, h_out_scene⟩
  norm_num [Rout, Ray.new, Ray.contains, Vec3.unit, Vec3.len, fsqrt_one]

/-- C2: the matrix-times-vector operator should be the standard row-by-column
product, but rows 1..3 of the code multiply the row's column-0 entry by
vec[1], vec[2], vec[3] respectively instead of vec[0]; at the shear matrix
with M[1][0] = 1 and v = (1,2,3,1) the code yields component 1 = 4 while the
standard product yields 3. -/
theorem c2_mulvec_row_bug :
    mBug.mulVec ⟨1,2,3,1⟩ = ⟨1,4,3,1⟩ ∧
    Matrix4x4.mulVecStd mBug ⟨1,2,3,1⟩ = ⟨1,3,3,1⟩ ∧
    mBug.mulVec ⟨1,2,3,1⟩ ≠ Matrix4x4.mulVecStd mBug ⟨1,2,3,1⟩ := by
  refine ⟨h_mulvec_bug, h_mulvec_std, ?_⟩
  rw [h_mulvec_bug, h_mulvec_std]
  decide

/-- C3 (amended): in trace_limited with positive reflectivity and remaining
depth, each channel of the result equals
floor(local · (1 − ρ)) + floor(reflected · ρ): the integer truncation is
applied to each term separately and the truncated terms are then summed —
not one truncation after the floating-point blend sum. -/
theorem c3_blend_truncates_each_term :
    ∀ (sc : Scene) (dp : ℕ) (ray : Ray) (m : Model) (i : Intersection),
      sc.closestIntersection ray = some (m, i) →
      0 < m.material.reflective →
      sc.traceLimited (dp + 1) ray =
        blendPerTerm (localShade m (sc.lightning i))
          (sc.traceLimited dp (reflectionRay ray i)) m.material.reflective :=
  fun sc dp ray m i hc hρ => traceLimited_succ_step sc dp ray m i hc hρ

/-- C3 (witness): the blend step instantiated on the concrete reflective
plane scene at depth 1. -/
theorem c3_blend_truncates_each_term_witness :
    S3.traceLimited (0 + 1) R1 =
      blendPerTerm (localShade mA (S3.lightning i1))
        (S3.traceLimited 0 (reflectionRay R1 i1)) mA.material.reflective :=
  c3_blend_truncates_each_term S3 0 R1 mA i1 h_closest3 (by norm_num [mA])

/-- C3 (counterexample): in the reflective plane scene the local color is
(199, 160, 8), the reflected color is the background (31, 31, 31) and
ρ = 1/2; the code returns channel 0 as floor(99.5) + floor(15.5) = 114,
whereas truncating only after the blend sum would give floor(115) = 115. -/
theorem c3_counterexample :
    S3.closestIntersection R1 = some (mA, i1) ∧
    0 < mA.material.reflective ∧
    localShade mA (S3.lightning i1) = ⟨199, 160, 8⟩ ∧
    S3.traceLimited 0 (reflectionRay R1 i1) = ⟨31, 31, 31⟩ ∧
    S3.traceLimited 1 R1 = ⟨114, 95, 19⟩ ∧
    blendAfterSum ⟨199, 160, 8⟩ ⟨31, 31, 31⟩ mA.material.reflective = ⟨115, 95, 19⟩ ∧
    ((⟨114, 95, 19⟩ : Rgb) ≠ ⟨115, 95, 19⟩) :=
  ⟨h_closest3, by norm_num [mA], h_shade, h_trace0, h_trace1, h_after, by decide⟩

/-- C4: Triangle::new stores unit(v0 × v1) — the cross product of the two
position vectors, not of the edge vectors — as the default normal at all
three corners; at vertices (1,1,0), (2,1,0), (1,2,0) it stores (0,0,-1)
while the geometric normal unit((V1−V0) × (V2−V0)) is (0,0,1). -/
theorem c4_default_normal_bug :
    (Triangle.new ⟨1,1,0⟩ ⟨2,1,0⟩ ⟨1,2,0⟩).n0 = ⟨0,0,-1⟩ ∧
    (Triangle.new ⟨1,1,0⟩ ⟨2,1,0⟩ ⟨1,2,0⟩).n1 = ⟨0,0,-1⟩ ∧
    (Triangle.new ⟨1,1,0⟩ ⟨2,1,0⟩ ⟨1,2,0⟩).n2 = ⟨0,0,-1⟩ ∧
    (((⟨2,1,0⟩ : Vec3) - ⟨1,1,0⟩).cross ((⟨1,2,0⟩ : Vec3) - ⟨1,1,0⟩)).unit = ⟨0,0,1⟩ ∧
    ((⟨0,0,-1⟩ : Vec3) ≠ ⟨0,0,1⟩) := by
  refine ⟨?_, ?_, ?_, ?_, by decide⟩
  · norm_num [Triangle.new, Vec3.cross, Vec3.unit, Vec3.len, fsqrt_one]
  · norm_num [Triangle.new, Vec3.cross, Vec3.unit, Vec3.len, fsqrt_one]
  · norm_num [Triangle.new, Vec3.cross, Vec3.unit, Vec3.len, fsqrt_one]
  · norm_num [Vec3.cross, Vec3.unit, Vec3.len, Vec3.sub_def, fsqrt_one]

/-- C5 (counterexample): transforming the plane with point (0,0,0) and
normal (0,1,0) by the translation T moving z by 1 maps the normal as a
w = 1 point to (0,1,1), while the inverse-transpose convention — which the
code's transform_normal applied to T⁻¹ computes — leaves it at (0,1,0). -/
theorem c5_counterexample :
    (Plane.transform ⟨⟨0,0,0⟩, ⟨0,1,0⟩⟩ mTrans).normal = ⟨0,1,1⟩ ∧
    apply3x3 mTrans.inverse.transpose ⟨0,1,0⟩ = ⟨0,1,0⟩ ∧
    Matrix4x4.transform_normal ⟨0,1,0⟩ mTrans.inverse = ⟨0,1,0⟩ ∧
    ((⟨0,1,1⟩ : Vec3) ≠ ⟨0,1,0⟩) := by
  refine ⟨?_, ?_, ?_, by decide⟩
  · norm_num [Plane.transform, Matrix4x4.mulVec, Vec4.ofVec3, Vec4.toVec3, mTrans]
  · norm_num [apply3x3, Matrix4x4.transpose, Matrix4x4.inverse, mTrans]
  · norm_num [Matrix4x4.transform_normal, Matrix4x4.inverse, mTrans]

/-- C5 (amended): transform maps the sphere center, the plane point and the
triangle vertices through the matrix-apply operator as w = 1 points, and the
triangle normals through transform_normal with the matrix's inverse — which
is exactly the inverse-transpose convention (the transposed 3x3 block of the
inverse); the Plane's normal, however, is also mapped as a w = 1 point, not
with the inverse-transpose convention. -/
theorem c5_transform_protocol :
    (∀ (p : Plane) (M : Matrix4x4), p.transform M =
      ⟨(M.mulVec (Vec4.ofVec3 p.point)).toVec3, (M.mulVec (Vec4.ofVec3 p.normal)).toVec3⟩) ∧
    (∀ (tr : Triangle) (M : Matrix4x4), tr.transform M =
      ⟨(M.mulVec (Vec4.ofVec3 tr.v0)).toVec3,
       (M.mulVec (Vec4.ofVec3 tr.v1)).toVec3,
       (M.mulVec (Vec4.ofVec3 tr.v2)).toVec3,
       apply3x3 M.inverse.transpose tr.n0,
       apply3x3 M.inverse.transpose tr.n1,
       apply3x3 M.inverse.transpose tr.n2⟩) ∧
    (∀ (s : Sphere) (M : Matrix4x4), s.transform M =
      ⟨(M.mulVec (Vec4.ofVec3 s.center)).toVec3, s.radius⟩) := by
  refine ⟨fun p M => rfl, fun tr M => ?_, fun s M => rfl⟩
  simp only [Triangle.transform, transform_normal_is_transpose_apply]

/-- C6: applying transform(M) and then transform(M.inverse()) does not
restore the vertices even over exact arithmetic for an invertible matrix:
for the shear M (row 1 = (1,1,0,0)), whose code-computed inverse is exact
(M·M⁻¹ = M⁻¹·M = I under the correct matrix-matrix product), the vertex
(0,1,0) round-trips to (0,0,0), because the matrix-apply operator misreads
the column-0 coefficient in rows 1..3. -/
theorem c6_roundtrip_bug :
    Matrix4x4.mmul mBug mBug.inverse = Matrix4x4.identity ∧
    Matrix4x4.mmul mBug.inverse mBug = Matrix4x4.identity ∧
    tShear.v0 = ⟨0,1,0⟩ ∧
    ((tShear.transform mBug).transform mBug.inverse).v0 = ⟨0,0,0⟩ ∧
    ((tShear.transform mBug).transform mBug.inverse).v0 ≠ tShear.v0 := by
  have h4 : ((tShear.transform mBug).transform mBug.inverse).v0 = ⟨0,0,0⟩ := by
    norm_num [Triangle.transform, Matrix4x4.mulVec, Matrix4x4.inverse,
      Matrix4x4.transform_normal, Vec4.ofVec3, Vec4.toVec3, mBug, tShear]
  refine ⟨?_, ?_, rfl, h4, ?_⟩
  · norm_num [Matrix4x4.mmul, Matrix4x4.inverse, Matrix4x4.identity, mBug]
  · norm_num [Matrix4x4.mmul, Matrix4x4.inverse, Matrix4x4.identity, mBug]
  · rw [h4, show tShear.v0 = ⟨0,1,0⟩ from rfl]
    decide

/-- C7: closest_intersection returns none exactly when no model yields an
in-interval hit; when it returns a pair, that pair is one model's own hit,
its t lies within the interval, it is ≤ the t of every model's in-interval
hit, and it is strictly below the t of every in-interval hit of a model
earlier in the scan order (first-encountered wins on exact ties). -/
theorem c7_closest_intersection_spec :
    ∀ (sc : Scene) (ray : Ray),
      (sc.closestIntersection ray = none ↔
        ∀ m ∈ sc.objects, ∀ i, hitOf ray m = some i → ¬ ray.contains i.t) ∧
      (∀ m i, sc.closestIntersection ray = some (m, i) →
        ∃ pre post, sc.objects = pre ++ m :: post ∧ hitOf ray m = some i ∧
          ray.contains i.t ∧
          (∀ m2 ∈ pre, ∀ i2, hitOf ray m2 = some i2 → ray.contains i2.t → i.t < i2.t) ∧
          (∀ m2 ∈ sc.objects, ∀ i2, hitOf ray m2 = some i2 → ray.contains i2.t → i.t ≤ i2.t)) := by
  intro sc ray
  constructor
  · rw [Scene.closestIntersection, closestAux_none_iff]
    constructor
    · intro h m hm i hi hc
      exact h m hm i hi ⟨WithTop.coe_lt_top _, hc⟩
    · intro h m hm i hi hpair
      exact h m hm i hi hpair.2
  · intro m i h
    rw [Scene.closestIntersection] at h
    obtain ⟨pre, post, hsplit, hhit, hcont, _, hpre, hpost⟩ :=
      closestAux_none_start_spec ray sc.objects ⊤ m i h
    refine ⟨pre, post, hsplit, hhit, hcont, hpre, ?_⟩
    intro m2 hm2 i2 hx hc
    rw [hsplit] at hm2
    rcases List.mem_append.mp hm2 with hmp | hmc
    · exact le_of_lt (hpre m2 hmp i2 hx hc)
    · rcases List.mem_cons.mp hmc with rfl | hmr
      · rw [hhit] at hx
        injection hx with hx
        exact le_of_eq (by rw [hx])
      · exact hpost m2 hmr i2 hx hc

/-- C7 (witness): in the two-sphere scene the scan returns the first
sphere's hit at t = 2, which lies in the interval and is at most the second
sphere's hit parameter 4. -/
theorem c7_closest_intersection_spec_witness :
    R7.contains i7.t ∧ i7.t ≤ (4 : ℚ) := by
  obtain ⟨pre, post, hsplit, hhit, hcont, hpre, hall⟩ :=
    (c7_closest_intersection_spec S7 R7).2 mdl1 i7 h_closest7
  refine ⟨hcont, ?_⟩
  have h2 : hitOf R7 mdl2 = some ⟨4, ⟨0,0,4⟩, ⟨0,0,-1⟩⟩ := by
    rw [hitOf]; exact h_hit2
  have hm2 : mdl2 ∈ S7.objects := by simp [S7]
  have hc2 : R7.contains (4 : ℚ) := by norm_num [hR7, Ray.contains]
  exact hall mdl2 hm2 ⟨4, ⟨0,0,4⟩, ⟨0,0,-1⟩⟩ h2 hc2

/-- C8: the sphere intersection solves the quadratic |O + tD − C|² = r² and
always reports the smaller of its two roots, never the farther one: whenever
the discriminant is nonnegative, the leading coefficient is nonzero and the
modelled square root is exact on the discriminant, the returned t satisfies
the quadratic and is ≤ every root of it; and for the unit sphere at the
origin and the ray from (0,0,−5) along (0,0,1) the hit is t = 4 with normal
(0,0,−1). -/
theorem c8_sphere_min_root :
    (∀ (s : Sphere) (ray : Ray),
      ¬ sphereDisc s ray < 0 → sphereQa ray ≠ 0 →
      fsqrt (sphereDisc s ray) * fsqrt (sphereDisc s ray) = sphereDisc s ray →
      ∃ i, s.intersection ray = some i ∧
        sphereQa ray * i.t ^ 2 + sphereQb s ray * i.t + sphereQc s ray = 0 ∧
        ∀ u : ℚ, sphereQa ray * u ^ 2 + sphereQb s ray * u + sphereQc s ray = 0 → i.t ≤ u) ∧
    Sphere.intersection sphUnit R8 = some ⟨4, ⟨0,0,-1⟩, ⟨0,0,-1⟩⟩ :=
  ⟨fun s ray h1 h2 h3 => sphere_reports_min_root s ray h1 h2 h3, h_r8_eval⟩

/-- C8 (witness): the universal part applied to the unit sphere and the
spec's test ray; the returned parameter 4 is a root of that quadratic. -/
theorem c8_sphere_min_root_witness :
    sphereQa R8 * (4 : ℚ) ^ 2 + sphereQb sphUnit R8 * 4 + sphereQc sphUnit R8 = 0 := by
  obtain ⟨i, hsome, hroot, hmin⟩ :=
    c8_sphere_min_root.1 sphUnit R8 (by rw [h_disc8]; norm_num)
      (by rw [h_qa8]; norm_num) (by rw [h_disc8, fsqrt_four]; norm_num)
  rw [h_r8_eval] at hsome
  injection hsome with hs
  rw [← hs] at hroot
  exact hroot

/-- C9: lightning equals the sum over all lights of a per-light contribution
that is zero whenever the shadow ray from the hit point toward the light
(valid interval from 1e-6 to 1e20) hits anything — binary occlusion with no
distance check against the light — and otherwise equals
intensity · max(0, N·L) / (|N|·|L|) with L the unnormalized vector from the
hit point to the light position. -/
theorem c9_lightning_is_sum :
    ∀ (sc : Scene) (i : Intersection),
      sc.lightning i = (sc.lights.map (lightContributionSpec sc i)).sum := by
  intro sc i
  rw [Scene.lightning, lightningAux_eq]
  simp

/-- C10: whenever the scene-level closest-hit scan, or the mesh-level scan
over its triangles, returns a hit, the hit's parameter t lies within the
ray's valid interval (ray.contains t holds): both scans re-validate the
interval, so an out-of-interval hit produced by an individual primitive is
never propagated to shading. -/
theorem c10_hits_within_interval :
    (∀ (sc : Scene) (ray : Ray) (m : Model) (i : Intersection),
      sc.closestIntersection ray = some (m, i) → ray.contains i.t) ∧
    (∀ (tris : List Triangle) (ray : Ray) (i : Intersection),
      Geometry.intersection (.mesh tris) ray = some i → ray.contains i.t) := by
  constructor
  · intro sc ray m i h
    rw [Scene.closestIntersection] at h
    exact closestAux_contains ray sc.objects ⊤ none (by intro m3 i3 h3; cases h3) m i h
  · intro tris ray i h
    rw [Geometry.intersection] at h
    exact meshAux_contains ray tris ⊤ none (by intro i3 h3; cases h3) i h

/-- C10 (witness): both parts applied to the two-sphere scene and to the
one-triangle mesh; the returned parameters lie within the interval. -/
theorem c10_hits_within_interval_witness :
    R7.contains i7.t ∧ R7.contains (2 : ℚ) :=
  ⟨c10_hits_within_interval.1 S7 R7 mdl1 i7 h_closest7,
   c10_hits_within_interval.2 [tri0] R7 ⟨2, ⟨0,0,2⟩, ⟨0,0,-1⟩⟩ h_mesh0⟩

end Photon
